import Mathlib

/-!
Verification of the valida-rs test harness against its specification.

This file gives a shallow embedding of the parts of `src/io.rs` and
`src/test_utils.rs` that the checked properties are about, and proves (or
refutes) each property over that embedding.

Modelling conventions:
- a tape is a `List Nat` of the `u32` values that successive `getchar`
  calls return; an exhausted tape is an empty list (every further
  `getchar` returns `u32::MAX`);
- durations are natural numbers of milliseconds;
- Rust `format!` diagnostics are modelled by inductive error values that
  carry the data interpolated into the message, not by the rendered text.
-/

set_option maxRecDepth 10000

/-! Model of `src/io.rs`. -/

/-- The `u32::MAX` end-of-stream value returned by `getchar`. -/
def U32_MAX : Nat := 4294967295

/-- Model of `io::read`: read bytes (`input as u8`) until `getchar`
returns `u32::MAX`. -/
def io_read : List Nat → List Nat
  | [] => []
  | b :: rest => if b = U32_MAX then [] else b % 256 :: io_read rest

/-- Model of `io::read_until(stop_char)`, additionally returning the part
of the tape that remains unconsumed (the Rust function consumes from the
global input tape). Hitting end-of-stream leaves the tape exhausted;
hitting the stop character consumes it. -/
def readUntilConsume (stop : Nat) : List Nat → List Nat × List Nat
  | [] => ([], [])
  | b :: rest =>
    if b = U32_MAX then ([], b :: rest)
    else if b % 256 = stop then ([], rest)
    else
      let r := readUntilConsume stop rest
      (b % 256 :: r.1, r.2)

/-- Second-byte constraint of a three-byte UTF-8 sequence (RFC 3629):
`E0` requires `A0..BF`, `ED` requires `80..9F` (no surrogates), the rest
require `80..BF`. -/
def utf8Cont2Ok (b1 b2 : Nat) : Bool :=
  if b1 = 224 then 160 ≤ b2 && b2 ≤ 191
  else if b1 = 237 then 128 ≤ b2 && b2 ≤ 159
  else 128 ≤ b2 && b2 ≤ 191

/-- Second-byte constraint of a four-byte UTF-8 sequence (RFC 3629):
`F0` requires `90..BF`, `F4` requires `80..8F` (≤ U+10FFFF), the rest
require `80..BF`. -/
def utf8Cont3Ok (b1 b2 : Nat) : Bool :=
  if b1 = 240 then 144 ≤ b2 && b2 ≤ 191
  else if b1 = 244 then 128 ≤ b2 && b2 ≤ 143
  else 128 ≤ b2 && b2 ≤ 191

/-- Strict UTF-8 decoding of a byte list, as validated by Rust
`std::str::from_utf8`: `none` exactly on invalid UTF-8. -/
def utf8Decode? : List Nat → Option (List Char)
  | [] => some []
  | b1 :: rest =>
    if b1 < 128 then
      (utf8Decode? rest).map (fun cs => Char.ofNat b1 :: cs)
    else if 194 ≤ b1 && b1 ≤ 223 then
      match rest with
      | b2 :: rest2 =>
        if 128 ≤ b2 && b2 ≤ 191 then
          (utf8Decode? rest2).map (fun cs => Char.ofNat ((b1 - 192) * 64 + (b2 - 128)) :: cs)
        else none
      | [] => none
    else if 224 ≤ b1 && b1 ≤ 239 then
      match rest with
      | b2 :: b3 :: rest3 =>
        if utf8Cont2Ok b1 b2 && (128 ≤ b3 && b3 ≤ 191) then
          (utf8Decode? rest3).map
            (fun cs => Char.ofNat ((b1 - 224) * 4096 + (b2 - 128) * 64 + (b3 - 128)) :: cs)
        else none
      | _ => none
    else if 240 ≤ b1 && b1 ≤ 244 then
      match rest with
      | b2 :: b3 :: b4 :: rest4 =>
        if utf8Cont3Ok b1 b2 && (128 ≤ b3 && b3 ≤ 191) && (128 ≤ b4 && b4 ≤ 191) then
          (utf8Decode? rest4).map
            (fun cs =>
              Char.ofNat ((b1 - 240) * 262144 + (b2 - 128) * 4096 + (b3 - 128) * 64 + (b4 - 128)) :: cs)
        else none
      | _ => none
    else none

/-- Rust `char::is_whitespace` (the Unicode `White_Space` property). -/
def rustIsWhitespace (c : Char) : Bool :=
  let n := c.toNat
  (9 ≤ n && n ≤ 13) || n == 32 || n == 133 || n == 160 || n == 5760 ||
    (8192 ≤ n && n ≤ 8202) || n == 8232 || n == 8233 || n == 8239 || n == 8287 || n == 12288

/-- Rust `str::trim`: drop Unicode whitespace from both ends. -/
def rustTrim (s : String) : String :=
  String.mk (((s.data.dropWhile rustIsWhitespace).reverse.dropWhile rustIsWhitespace).reverse)

/-- Error cases of `io::read_line::<String>`. Parsing a `String` is
infallible, so only UTF-8 validation can fail. -/
inductive ReadLineErr
  | invalidUtf8
deriving DecidableEq

/-- Model of `io::read_line::<String>()`: read bytes up to a newline (or
end of stream), validate UTF-8, trim, and parse (a no-op for `String`).
Also returns the unconsumed rest of the tape. -/
def read_line_string (tape : List Nat) : Except ReadLineErr (String × List Nat) :=
  let r := readUntilConsume 10 tape
  match utf8Decode? r.1 with
  | none => .error .invalidUtf8
  | some cs => .ok (rustTrim (String.mk cs), r.2)

/-- Errors of the bincode codec used by `io::read_and_deserialize` /
`io::write` (options: fixint encoding, little endian, and the default
reject-trailing-bytes behavior of `bincode::options()`). -/
inductive BincodeErr
  | unexpectedEof
  | trailingBytes
deriving DecidableEq

/-- bincode fixint little-endian serialization of a `u32`. -/
def bincode_serialize_u32 (v : Nat) : List Nat :=
  [v % 256, v / 256 % 256, v / 65536 % 256, v / 16777216 % 256]

/-- bincode fixint little-endian deserialization of a `u32`: take four
bytes, reject any trailing bytes. -/
def bincode_deserialize_u32 : List Nat → Except BincodeErr Nat
  | b0 :: b1 :: b2 :: b3 :: rest =>
    if rest.isEmpty then .ok (b0 + 256 * b1 + 65536 * b2 + 16777216 * b3)
    else .error .trailingBytes
  | _ => .error .unexpectedEof

/-- Model of `io::write::<u32>`: emit the decimal ASCII byte count of the
serialized payload, a newline, then the payload. -/
def write_u32 (v : Nat) : List Nat :=
  let bytes := bincode_serialize_u32 v
  ((toString bytes.length).data.map Char.toNat) ++ [10] ++ bytes

/-- Model of `io::read_and_deserialize::<u32>`: read the whole input tape
until end-of-stream, then bincode-deserialize all of it. -/
def read_and_deserialize_u32 (tape : List Nat) : Except BincodeErr Nat :=
  bincode_deserialize_u32 (io_read tape)

/-! Model of the host-side single-test executor `run_test_on_host`
(`src/test_utils.rs`). -/

/-- `test::ShouldPanic` of a test descriptor. -/
inductive ShouldPanicKind
  | no
  | yes
  | yesWithMessage (msg : String)
deriving DecidableEq

/-- What `downcast_ref` recovers from a panic payload: a string (`String`
or `&str`), or a non-string value. -/
inductive PanicPayload
  | str (s : String)
  | nonStr
deriving DecidableEq

/-- Termination evidence of one host-side test invocation:
`panic::catch_unwind(f)` where `f` returns `Result<(), _>`. -/
inductive HostResult
  | okOk
  | okErr
  | panicked (p : PanicPayload)
deriving DecidableEq

/-- The data interpolated into a `TestOutcome::Failed` message. -/
inductive FailReason
  | wrongPanicMessage (expected : String) (got : Option String)
  | panickedUnexpectedly
  | returnedError
deriving DecidableEq

/-- `TestOutcome` from `src/test_utils.rs`; `passed` carries the measured
duration in milliseconds. -/
inductive TestOutcome
  | passed (duration : Nat)
  | failed (reason : FailReason)
  | shouldPanicButPassed
  | unsupported
deriving DecidableEq

/-- The shape of `TestFn`: a `StaticTestFn` whose invocation produced the
given evidence, or any other (unsupported) test-function kind. -/
inductive TestFnKind
  | staticFn (r : HostResult)
  | other
deriving DecidableEq

/-- Rust `str::contains` on valid UTF-8 strings: `needle` occurs as a
contiguous substring of the haystack. -/
def strContainsAux (needle : List Char) : List Char → Bool
  | [] => needle.isEmpty
  | c :: rest => needle.isPrefixOf (c :: rest) || strContainsAux needle rest

/-- Rust `hay.contains(needle)`. -/
def strContains (hay needle : String) : Bool :=
  strContainsAux needle.data hay.data

/-- Model of `run_test_on_host`. The first component is the returned
`TestOutcome`; the second is whether `log_test_failure()` ran, i.e.
whether the captured stdout/stderr buffer was emitted as diagnostics.
The match arms are in exact correspondence with the Rust `match`. -/
def run_test_on_host (d : Nat) (k : TestFnKind) (sp : ShouldPanicKind) : TestOutcome × Bool :=
  match k with
  | .other => (.unsupported, false)
  | .staticFn r =>
    match r, sp with
    | .okOk, .no => (.passed d, false)
    | .panicked _, .yes => (.passed d, false)
    | .panicked p, .yesWithMessage msg =>
      match p with
      | .str s =>
        if strContains s msg then (.passed d, false)
        else (.failed (.wrongPanicMessage msg (some s)), true)
      | .nonStr => (.failed (.wrongPanicMessage msg none), true)
    | .panicked _, .no => (.failed .panickedUnexpectedly, true)
    | .okOk, .yes => (.shouldPanicButPassed, true)
    | .okOk, .yesWithMessage _ => (.shouldPanicButPassed, true)
    | .okErr, _ => (.failed .returnedError, true)

/-! The panic sentinel and the incremental marker search of the
supervisor poll loop in `run_test_on_valida_inner`. -/

/-- The `MAGIC_TERMINATOR` sentinel constant (`src/test_utils.rs`). -/
def MAGIC_TERMINATOR : String := "\n\n\n\nvalida_rs_panic_terminator_YMYGE2otWHIAZ5IKtvTkCnt7B/aNTisJtmkNu9/H0C2pZp7XTeGIO2RZypwus7wvKyG9f4/nwrEP1vEy+YJJqS6ulJqks25EgHbZXQIZIWVfVK+HgmFvaINl49axeKZgk2SNIDAayGhmO5a0okHc9qFzOZhDIblXdybCoVCVaZfX/5G9T4FbbX8ktLV0nLI/nns1fakApi2eHTxP/+lWlXFznl+eipFNQg9h3ZS7VX6i3EGTOYO86TJmAUyLAfqKWuQFTvNHeFFofd4nhUiek2FuI939T3L5uFc7A9oQClGmLTSaGytDNT8slxuaRvQM99ntk+CLK+X8eNVQdKh0xA\n\n\n\n"

/-- `MAGIC_TERMINATOR.as_bytes()`: the constant is pure ASCII, so its
UTF-8 bytes are the character codes. -/
def magicBytes : List Nat := MAGIC_TERMINATOR.data.map Char.toNat

/-- `stdout_buffer.len().checked_sub(MAGIC_TERMINATOR.len()).unwrap_or(searched_cursor)`. -/
def searchEndOf (marker buf : List Nat) (cursor : Nat) : Nat :=
  if buf.length < marker.length then cursor else buf.length - marker.length

/-- `&stdout_buffer[i..i + MAGIC_TERMINATOR.len()] == MAGIC_TERMINATOR.as_bytes()`. -/
def sliceEq (marker buf : List Nat) (i : Nat) : Bool :=
  ((buf.drop i).take marker.length) == marker

/-- `(searched_cursor..search_end).any(|i| ...)`: scan the half-open index
range for a window equal to the marker. -/
def scanFound (marker buf : List Nat) (cursor searchEnd : Nat) : Bool :=
  (List.range' cursor (searchEnd - cursor)).any (fun i => sliceEq marker buf i)

/-- The per-poll state of the incremental search: the accumulated
`stdout_buffer` and the `searched_cursor`. -/
structure ScanState where
  buffer : List Nat
  cursor : Nat
deriving DecidableEq

/-- One poll iteration of the marker search: extend the buffer with the
newly received bytes, scan `[searched_cursor, search_end)`, and advance
the cursor to `search_end`. Returns the new state and whether the marker
was reported this poll. -/
def scanStep (marker : List Nat) (s : ScanState) (chunk : List Nat) : ScanState × Bool :=
  let buf := s.buffer ++ chunk
  let se := searchEndOf marker buf s.cursor
  (⟨buf, se⟩, scanFound marker buf s.cursor se)

/-- Total number of polls that report the marker when the byte stream is
delivered as the given sequence of chunks, one chunk per poll. -/
def scanReports (marker : List Nat) (s : ScanState) : List (List Nat) → Nat
  | [] => 0
  | c :: cs =>
    let r := scanStep marker s c
    (if r.2 then 1 else 0) + scanReports marker r.1 cs

/-- The marker occurs in `l` at position `p` (all marker bytes inside
`l`). -/
def occursAt (l marker : List Nat) (p : Nat) : Prop :=
  p + marker.length ≤ l.length ∧ (l.drop p).take marker.length = marker

instance (l marker : List Nat) (p : Nat) : Decidable (occursAt l marker p) := by
  unfold occursAt; infer_instance

/-! Model of the guest-side dispatcher `run_single_test_in_valida` and of
the host-side supervisor `run_test_on_valida` / `run_test_on_valida_inner`
(`src/test_utils.rs`). -/

/-- The fields of `TestDescAndFn` that the harness reads. -/
structure TestDesc where
  name : String
  source_file : String
  ignore : Bool
  should_panic : ShouldPanicKind
deriving DecidableEq

/-- The availability line the guest dispatcher prints first: the pieces
written by `io::print` followed by the newline of `io::println("")`.
(`io::print` is not under `src/`; modelled from the spec: it writes the
string bytes to the output tape without a newline.) -/
def availabilityLine (tests : List TestDesc) : String :=
  "Available tests:" ++
    String.join (tests.map (fun t => " (" ++ t.name ++ ", " ++ t.source_file ++ ")"))

/-- `valida_test_second_line_stdout`: the handshake line. -/
def valida_test_second_line_stdout (t : TestDesc) : String :=
  "Running test: " ++ t.name ++ " in valida vm"

/-- Model of `run_single_test_in_valida`: the lines the dispatcher itself
emits (availability line, then the handshake line when the requested test
is found), before any output of the selected test function. An error from
either `read_line` takes the early-return path; a failed registry lookup
emits nothing further. -/
def run_single_test_in_valida (tests : List TestDesc) (tape : List Nat) : List String :=
  let avail := availabilityLine tests
  match read_line_string tape with
  | .error _ => [avail]
  | .ok (test_name, rest) =>
    match read_line_string rest with
    | .error _ => [avail]
    | .ok (test_file, _) =>
      let tn := rustTrim test_name
      match tests.find? (fun t => t.name == tn && t.source_file == test_file) with
      | some t => [avail, valida_test_second_line_stdout t]
      | none => [avail]

/-- Split a byte list at every occurrence of `sep` (the separator bytes
are dropped; `n` separators give `n + 1` pieces). -/
def splitOnByte (sep : Nat) : List Nat → List (List Nat)
  | [] => [[]]
  | b :: rest =>
    match splitOnByte sep rest with
    | [] => [[]]
    | cur :: done =>
      if b = sep then [] :: cur :: done else (b :: cur) :: done

/-- Rust `str::lines` at the byte level: split on newline, drop the
optional final empty piece, and strip one trailing carriage return from
each line. -/
def rustLinesBytes (bs : List Nat) : List (List Nat) :=
  let pieces := splitOnByte 10 bs
  let pieces := if pieces.getLast? = some [] then pieces.dropLast else pieces
  pieces.map (fun l => if l.getLast? = some 13 then l.dropLast else l)

/-- Model of `check_test_started`: with the bytes received during the
bounded handshake wait already in the buffer, the candidate matches iff a
first line exists and the second line equals the expected handshake
string for this test. -/
def check_test_started (received : List Nat) (t : TestDesc) : Bool :=
  match (rustLinesBytes received)[0]?, (rustLinesBytes received)[1]? with
  | some _, some l2 => utf8Decode? l2 == some (valida_test_second_line_stdout t).data
  | _, _ => false

/-- Rust `[u8]::trim_ascii_end`. -/
def trimAsciiEnd (l : List Nat) : List Nat :=
  (l.reverse.dropWhile (fun b => b = 32 || b = 9 || b = 10 || b = 12 || b = 13)).reverse

/-- Rust `strip_suffix` on byte slices. -/
def stripSuffix? (l suf : List Nat) : Option (List Nat) :=
  if suf.length ≤ l.length ∧ l.drop (l.length - suf.length) = suf then
    some (l.take (l.length - suf.length))
  else none

/-- The buffer cleanup before reporting an unexpected panic: trim ASCII
whitespace at the end and strip the (end-trimmed) magic terminator; if
that fails, keep the full buffer. -/
def stripTerminator (buf : List Nat) : List Nat :=
  match stripSuffix? (trimAsciiEnd buf) (trimAsciiEnd magicBytes) with
  | some r => r
  | none => buf

/-- The observations one iteration of the supervisor poll loop makes:
the stdout segments drained at the top of the loop, the `try_wait`
result (`.error` for a wait failure, `.ok none` still running,
`.ok (some s)` exited with success flag `s`), the further segments
drained by the second `receive_child_stdout` call on the exit and
wait-failure paths, and the elapsed time (ms) at the timeout check. -/
structure PollObs where
  chunks : List (List Nat)
  wait : Except Unit (Option Bool)
  lateChunks : List (List Nat)
  elapsed : Nat

/-- The environment one `run_test_on_valida_inner` call interacts with:
the bytes that arrived during the `check_test_started` wait, and the
per-iteration observations of the poll loop. -/
structure GuestEnv where
  handshakeBytes : List Nat
  polls : List PollObs

/-- The data of each `Err(format!(...))` return of
`run_test_on_valida_inner`. -/
inductive InnerErr
  | panickedUnexpectedly (output : List Nat)
  | waitFailure (output : List Nat)
  | didNotPanic (output : List Nat)
  | exitFailure (output : List Nat)
  | timedOut (timeout : Nat) (output : List Nat)
deriving DecidableEq

/-- `ScopedChild::drop`: the child is killed. Applied at every return
edge of the supervising call, which is where Rust runs the destructor. -/
def killChild (_alive : Bool) : Bool := false

/-- The supervisor poll loop of `run_test_on_valida_inner`, one
`PollObs` per iteration. Returns `none` when the observation list is
exhausted with the loop still spinning, otherwise the function result
paired with whether the child is still alive after the return. -/
def pollLoop (t : TestDesc) (timeout : Nat) (alive : Bool) :
    ScanState → List PollObs → Option ((Except InnerErr Bool) × Bool)
  | _, [] => none
  | s, p :: rest =>
    let r := scanStep magicBytes s p.chunks.flatten
    if r.2 then
      match t.should_panic with
      | .no => some (.error (.panickedUnexpectedly (stripTerminator r.1.buffer)), killChild alive)
      | _ => some (.ok true, killChild alive)
    else
      match p.wait with
      | .error _ =>
        some (.error (.waitFailure (r.1.buffer ++ p.lateChunks.flatten)), killChild alive)
      | .ok (some success) =>
        let buf := r.1.buffer ++ p.lateChunks.flatten
        match success, t.should_panic with
        | true, .no => some (.ok true, killChild alive)
        | true, _ => some (.error (.didNotPanic buf), killChild alive)
        | false, .no => some (.error (.exitFailure buf), killChild alive)
        | false, _ => some (.ok true, killChild alive)
      | .ok none =>
        if timeout ≤ p.elapsed then
          match t.should_panic with
          | .no => some (.error (.timedOut timeout r.1.buffer), killChild alive)
          | _ => some (.ok true, killChild alive)
        else
          pollLoop t timeout alive r.1 rest

/-- Model of `run_test_on_valida_inner`: spawn the child (alive), run the
handshake check over the drained bytes (`Ok(false)` on mismatch), then
poll with `timeout = max(host_test_time * 20, 10 s)`, the buffer
retaining the handshake bytes and the search cursor starting at 0. -/
def run_test_on_valida_inner (t : TestDesc) (host_test_time : Nat) (env : GuestEnv) :
    Option ((Except InnerErr Bool) × Bool) :=
  if check_test_started env.handshakeBytes t then
    pollLoop t (max (host_test_time * 20) 10000) true ⟨env.handshakeBytes, 0⟩ env.polls
  else
    some (.ok false, killChild true)

/-- The error cases of `run_test_on_valida`: no candidate binaries, a
propagated per-candidate failure, or the hard test-not-found error after
every candidate was rejected. -/
inductive ValidaErr
  | noBinaries
  | inner (e : InnerErr)
  | notFound
deriving DecidableEq

/-- The candidate loop of `run_test_on_valida`: per-candidate failures
propagate (`?`), `Ok(true)` returns success, `Ok(false)` advances to the
next candidate, and exhaustion is the hard not-found error. -/
def run_test_on_valida_go (t : TestDesc) (host_test_time : Nat) :
    List GuestEnv → Option (Except ValidaErr Unit)
  | [] => some (.error .notFound)
  | env :: rest =>
    match run_test_on_valida_inner t host_test_time env with
    | none => none
    | some (.error e, _) => some (.error (.inner e))
    | some (.ok true, _) => some (.ok ())
    | some (.ok false, _) => run_test_on_valida_go t host_test_time rest

/-- Model of `run_test_on_valida`: empty candidate list is an error,
otherwise try the candidates strictly in order. -/
def run_test_on_valida (t : TestDesc) (host_test_time : Nat) (envs : List GuestEnv) :
    Option (Except ValidaErr Unit) :=
  if envs.isEmpty then some (.error .noBinaries)
  else run_test_on_valida_go t host_test_time envs

/-! Model of the top-level `host_runner` aggregation and exit code. -/

/-- The six counters `host_runner` accumulates. -/
structure RunCounters where
  passed : Nat
  valida_passed : Nat
  ignored : Nat
  failed : Nat
  valida_failed : Nat
  unsupported : Nat
deriving DecidableEq

/-- What the per-test iteration of `host_runner` observes for one
filtered test: the `ignore` flag, the outcome `run_test_on_host`
produced, and the guest verdict `run_test_on_valida` produced (consulted
only when the host outcome is `Passed` and guest runs are enabled). -/
structure TestRunObs where
  ignore : Bool
  outcome : TestOutcome
  guest : Except ValidaErr Unit

/-- One iteration of the `host_runner` loop over a filtered test,
updating the counters exactly as the code does. -/
def hostRunnerStep (enabled : Bool) (c : RunCounters) (t : TestRunObs) : RunCounters :=
  if t.ignore then { c with ignored := c.ignored + 1 }
  else
    match t.outcome with
    | .passed _ =>
      let c := { c with passed := c.passed + 1 }
      if enabled then
        match t.guest with
        | .ok _ => { c with valida_passed := c.valida_passed + 1 }
        | .error _ => { c with valida_failed := c.valida_failed + 1 }
      else c
    | .failed _ => { c with failed := c.failed + 1 }
    | .shouldPanicButPassed => { c with failed := c.failed + 1 }
    | .unsupported => { c with unsupported := c.unsupported + 1 }

/-- The initial (all-zero) counters. -/
def initCounters : RunCounters := ⟨0, 0, 0, 0, 0, 0⟩

/-- Model of `host_runner`: run the loop over the filtered tests and
report `test_result = (failed == 0 && valida_failed == 0)` as the process
exit code (`exit(0)` / `exit(1)`). -/
def host_runner_exit_code (enabled : Bool) (tests : List TestRunObs) : Nat :=
  let c := tests.foldl (hostRunnerStep enabled) initCounters
  if c.failed = 0 ∧ c.valida_failed = 0 then 0 else 1

/-- UTF-8 bytes of an ASCII string (used to build concrete tapes and
buffers in witnesses). -/
def asciiBytes (s : String) : List Nat := s.data.map Char.toNat

/-! Claim C1: the value-framing round-trip. -/

theorem io_read_of_bytes (l : List Nat) (h : ∀ b ∈ l, b < 256) : io_read l = l := by
  induction l with
  | nil => rfl
  | cons b rest ih =>
    have hb : b < 256 := h b (by simp)
    simp only [io_read]
    rw [if_neg (by simp only [U32_MAX]; omega), Nat.mod_eq_of_lt hb,
      ih (fun x hx => h x (by simp [hx]))]

theorem serialize_u32_bytes_lt (v : Nat) : ∀ b ∈ bincode_serialize_u32 v, b < 256 := by
  simp only [bincode_serialize_u32, List.mem_cons, List.not_mem_nil, or_false]
  rintro b (rfl | rfl | rfl | rfl) <;> omega

theorem deserialize_u32_trailing (bytes : List Nat) (h : 5 ≤ bytes.length) :
    bincode_deserialize_u32 bytes = .error .trailingBytes := by
  rcases bytes with _ | ⟨b0, _ | ⟨b1, _ | ⟨b2, _ | ⟨b3, _ | ⟨b4, rest⟩⟩⟩⟩⟩ <;>
    simp_all [bincode_deserialize_u32]

theorem toString_four_bytes : ((toString (4 : Nat)).data.map Char.toNat) = [52] := by decide

theorem write_u32_eq (v : Nat) : write_u32 v = 52 :: 10 :: bincode_serialize_u32 v := by
  show ((toString (bincode_serialize_u32 v).length).data.map Char.toNat) ++ [10] ++
      bincode_serialize_u32 v = _
  have hl : (bincode_serialize_u32 v).length = 4 := by simp [bincode_serialize_u32]
  rw [hl, toString_four_bytes]
  rfl

/-- Claim C1 (amended): `write` emits a decimal length line that
`read_and_deserialize` never consumes, so over the very stream `write`
produced the round-trip fails; it holds once the length line is first
read off the stream (with the repository's own `read_until(b'\n')`):
for every `u32` value, `read_and_deserialize` over the remaining payload
returns `Ok(v)`. -/
theorem write_then_read_roundtrip_amended (v : Nat) (h : v < 4294967296) :
    read_and_deserialize_u32 ((readUntilConsume 10 (write_u32 v)).2) = .ok v
    ∧ read_and_deserialize_u32 (write_u32 v) ≠ .ok v := by
  have hpay : (readUntilConsume 10 (write_u32 v)).2 = bincode_serialize_u32 v := by
    rw [write_u32_eq]
    simp [readUntilConsume, U32_MAX]
  constructor
  · rw [hpay]
    unfold read_and_deserialize_u32
    rw [io_read_of_bytes _ (serialize_u32_bytes_lt v)]
    simp only [bincode_serialize_u32, bincode_deserialize_u32, List.isEmpty_nil, if_true]
    congr 1
    omega
  · have hall : ∀ b ∈ write_u32 v, b < 256 := by
      rw [write_u32_eq]
      intro b hb
      rcases List.mem_cons.mp hb with rfl | hb
      · omega
      rcases List.mem_cons.mp hb with rfl | hb
      · omega
      exact serialize_u32_bytes_lt v b hb
    unfold read_and_deserialize_u32
    rw [io_read_of_bytes _ hall, deserialize_u32_trailing _ (by
      rw [write_u32_eq]; simp [bincode_serialize_u32])]
    simp

/-- Witness for C1's amended theorem at `v = 5`. -/
theorem write_then_read_roundtrip_amended_witness :
    read_and_deserialize_u32 ((readUntilConsume 10 (write_u32 5)).2) = .ok 5
    ∧ read_and_deserialize_u32 (write_u32 5) ≠ .ok 5 :=
  write_then_read_roundtrip_amended 5 (by omega)

/-- Claim C1 counterexample: for `v = 5 : u32`, `write` emits
`"4\n" ++ [5,0,0,0]`, and `read_and_deserialize` over that same stream
reads all six bytes and fails with a trailing-bytes error instead of
returning `Ok(5)`: the claimed round-trip is false on the code. -/
theorem write_then_read_roundtrip_cex :
    write_u32 5 = [52, 10, 5, 0, 0, 0]
    ∧ read_and_deserialize_u32 (write_u32 5) = .error .trailingBytes
    ∧ read_and_deserialize_u32 (write_u32 5) ≠ .ok 5 :=
by
  have h2 : read_and_deserialize_u32 (write_u32 5) = .error .trailingBytes := rfl
  exact ⟨rfl, h2, by rw [h2]; simp⟩

/-! Claim C2: the host-side outcome decision table. -/

/-- Claim C2: `run_test_on_host` realises the §4.3 decision table for the
combinations the claim enumerates: normal completion with `No` is
`Passed`; normal completion with `Yes`/`YesWithMessage` is
`ShouldPanicButPassed`; a panic with `Yes` is `Passed`; a panic with
string message `M` under `YesWithMessage(e)` is `Passed` iff `M`
contains `e` and otherwise `Failed`; a panic with `No` is `Failed`; an
explicit `Err` return is `Failed` under every expectation. -/
theorem host_outcome_table (d : Nat) (e M : String) (p : PanicPayload)
    (sp : ShouldPanicKind) :
    (run_test_on_host d (.staticFn .okOk) .no).1 = .passed d
    ∧ (run_test_on_host d (.staticFn .okOk) .yes).1 = .shouldPanicButPassed
    ∧ (run_test_on_host d (.staticFn .okOk) (.yesWithMessage e)).1 = .shouldPanicButPassed
    ∧ (run_test_on_host d (.staticFn (.panicked p)) .yes).1 = .passed d
    ∧ (run_test_on_host d (.staticFn (.panicked (.str M))) (.yesWithMessage e)).1 =
        (if strContains M e then .passed d else .failed (.wrongPanicMessage e (some M)))
    ∧ (run_test_on_host d (.staticFn (.panicked p)) .no).1 = .failed .panickedUnexpectedly
    ∧ (run_test_on_host d (.staticFn .okErr) sp).1 = .failed .returnedError := by
  refine ⟨rfl, rfl, rfl, rfl, ?_, rfl, ?_⟩
  · by_cases h : strContains M e <;> simp [run_test_on_host, h]
  · cases sp <;> rfl

/-! Claim C5: when the captured host output buffer is emitted. -/

/-- Claim C5 (amended): the captured output buffer is attached to the
diagnostics exactly when the outcome is `Failed` or
`ShouldPanicButPassed`; on `Passed` and `Unsupported` it is discarded. -/
theorem host_log_emission_amended (d : Nat) (k : TestFnKind) (sp : ShouldPanicKind) :
    (run_test_on_host d k sp).2 =
      (match (run_test_on_host d k sp).1 with
        | .failed _ => true
        | .shouldPanicButPassed => true
        | .passed _ => false
        | .unsupported => false) := by
  rcases k with r | _
  · rcases r with _ | _ | p
    · cases sp <;> rfl
    · cases sp <;> rfl
    · rcases sp with _ | _ | msg
      · rfl
      · rfl
      · rcases p with s | _
        · by_cases h : strContains s msg <;> simp [run_test_on_host, h]
        · rfl
  · rfl

/-- Claim C5 counterexample: a test that completed normally under
`ShouldPanic::Yes` yields `ShouldPanicButPassed` — not `Failed` — yet
`log_test_failure()` runs and the captured buffer is emitted, refuting
the claim that the buffer is discarded on every non-`Failed` outcome. -/
theorem host_log_emission_cex :
    (run_test_on_host 0 (.staticFn .okOk) .yes).1 = .shouldPanicButPassed
    ∧ (run_test_on_host 0 (.staticFn .okOk) .yes).2 = true :=
  ⟨rfl, rfl⟩

/-! Claim C3: the incremental sentinel search. -/

theorem slice_append (B t : List Nat) (q n : Nat) (h : q + n ≤ B.length) :
    ((B ++ t).drop q).take n = (B.drop q).take n := by
  rw [List.drop_append_eq_append_drop, List.take_append_eq_append_take]
  have h1 : q - B.length = 0 := by omega
  have h2 : n - (B.drop q).length = 0 := by
    simp only [List.length_drop]
    omega
  rw [h1, h2]
  simp

theorem occursAt_append_of_occursAt (B t marker : List Nat) (q : Nat)
    (h : occursAt B marker q) : occursAt (B ++ t) marker q := by
  obtain ⟨h1, h2⟩ := h
  refine ⟨by simp only [List.length_append]; omega, ?_⟩
  rw [slice_append B t q marker.length h1]
  exact h2

theorem occursAt_of_occursAt_append (B t marker : List Nat) (q : Nat)
    (hlen : q + marker.length ≤ B.length)
    (h : occursAt (B ++ t) marker q) : occursAt B marker q := by
  obtain ⟨_, h2⟩ := h
  refine ⟨hlen, ?_⟩
  rw [slice_append B t q marker.length hlen] at h2
  exact h2

theorem searchEndOf_shift (marker B c : List Nat) :
    searchEndOf marker (B ++ c) (B.length - marker.length) =
      (B ++ c).length - marker.length := by
  unfold searchEndOf
  split
  · rename_i hlt
    simp only [List.length_append] at *
    omega
  · rfl

/-- The scanned-interval characterization of the incremental search:
from a state whose buffer is `B` and whose cursor is `B.length − m`, with
the rest of the stream arriving as `cs` and the marker occurring at most
at the unique position `p`, the number of reports is 1 exactly when `p`
lies beyond the already-cleared region and at least one byte follows the
occurrence; otherwise 0. -/
theorem scanReports_char (marker : List Nat) (p : Nat) :
    ∀ (cs : List (List Nat)) (B : List Nat),
      (∀ q, occursAt (B ++ cs.flatten) marker q → q = p) →
      scanReports marker ⟨B, B.length - marker.length⟩ cs =
        if B.length - marker.length ≤ p
            ∧ p + marker.length < (B ++ cs.flatten).length
            ∧ occursAt (B ++ cs.flatten) marker p
          then 1 else 0 := by
  intro cs
  induction cs with
  | nil =>
    intro B _
    rw [if_neg]
    · rfl
    · rintro ⟨h1, h2, _⟩
      simp only [List.flatten_nil, List.append_nil] at h2
      omega
  | cons c cs' ih =>
    intro B huniq
    have hstream : B ++ (c :: cs').flatten = (B ++ c) ++ cs'.flatten := by
      simp [List.flatten_cons, List.append_assoc]
    have huniq' : ∀ q, occursAt ((B ++ c) ++ cs'.flatten) marker q → q = p := by
      intro q hq
      exact huniq q (by rwa [hstream])
    have hIH := ih (B ++ c) huniq'
    have hkey : scanFound marker (B ++ c) (B.length - marker.length)
          ((B ++ c).length - marker.length) = true
        ↔ (B.length - marker.length ≤ p ∧ p < (B ++ c).length - marker.length
            ∧ occursAt (B ++ (c :: cs').flatten) marker p) := by
      unfold scanFound
      rw [List.any_eq_true]
      constructor
      · rintro ⟨i, hmem, hslice⟩
        rw [List.mem_range'_1] at hmem
        have hi1 : B.length - marker.length ≤ i := hmem.1
        have hi2 : i < (B ++ c).length - marker.length := by omega
        have hiw : i + marker.length ≤ (B ++ c).length := by omega
        unfold sliceEq at hslice
        rw [beq_iff_eq] at hslice
        have hoccB : occursAt (B ++ c) marker i := ⟨hiw, hslice⟩
        have hocc : occursAt (B ++ (c :: cs').flatten) marker i := by
          rw [hstream]
          exact occursAt_append_of_occursAt _ _ _ _ hoccB
        have := huniq i hocc
        subst this
        exact ⟨hi1, hi2, hocc⟩
      · rintro ⟨h1, h2, hocc⟩
        refine ⟨p, ?_, ?_⟩
        · rw [List.mem_range'_1]
          exact ⟨h1, by omega⟩
        · have hpw : p + marker.length ≤ (B ++ c).length := by omega
          have hoccB : occursAt (B ++ c) marker p := by
            rw [hstream] at hocc
            exact occursAt_of_occursAt_append _ _ _ _ hpw hocc
          unfold sliceEq
          rw [beq_iff_eq]
          exact hoccB.2
    show (if scanFound marker (B ++ c) (B.length - marker.length)
            (searchEndOf marker (B ++ c) (B.length - marker.length)) = true then 1 else 0)
          + scanReports marker ⟨B ++ c, searchEndOf marker (B ++ c)
              (B.length - marker.length)⟩ cs' = _
    rw [searchEndOf_shift, hIH]
    have hL1 : (B ++ (c :: cs').flatten).length = (B ++ c).length + cs'.flatten.length := by
      rw [hstream, List.length_append]
    have hL2 : B.length ≤ (B ++ c).length := by
      rw [List.length_append]; omega
    have hLs : ((B ++ c) ++ cs'.flatten).length = (B ++ c).length + cs'.flatten.length :=
      List.length_append _ _
    by_cases hocc : occursAt (B ++ (c :: cs').flatten) marker p
    · have hoccs : occursAt ((B ++ c) ++ cs'.flatten) marker p := by rwa [hstream] at hocc
      by_cases h1 : B.length - marker.length ≤ p ∧ p < (B ++ c).length - marker.length
      · rw [if_pos (hkey.mpr ⟨h1.1, h1.2, hocc⟩),
          if_neg (by rintro ⟨ha, _, _⟩; omega),
          if_pos ⟨h1.1, by omega, hocc⟩]
      · rw [if_neg (fun hf => h1 ⟨(hkey.mp hf).1, (hkey.mp hf).2.1⟩)]
        by_cases h2 : (B ++ c).length - marker.length ≤ p
            ∧ p + marker.length < ((B ++ c) ++ cs'.flatten).length
        · rw [if_pos ⟨h2.1, h2.2, hoccs⟩, if_pos ⟨by omega, by omega, hocc⟩]
        · rw [if_neg (by rintro ⟨ha, hb, _⟩; exact h2 ⟨ha, hb⟩),
            if_neg (by
              rintro ⟨ha, hb, _⟩
              by_cases hd : (B ++ c).length - marker.length ≤ p
              · exact h2 ⟨hd, by omega⟩
              · exact h1 ⟨ha, by omega⟩)]
    · rw [if_neg (fun hf => hocc (hkey.mp hf).2.2),
        if_neg (by rintro ⟨_, _, ho⟩; exact hocc (by rwa [hstream])),
        if_neg (by rintro ⟨_, _, ho⟩; exact hocc ho)]

theorem flatten_take_append (chunks : List (List Nat)) (k : Nat) :
    (chunks.take k).flatten ++ (chunks.drop k).flatten = chunks.flatten := by
  rw [← List.flatten_append, List.take_append_drop]

/-- Claim C3 (amended): when the Sentinel occurs exactly once in the
delivered stream, the incremental search reports it at most once, and
never before every Sentinel byte has been delivered; it reports it
exactly once provided at least one byte of the stream follows the
occurrence. (As stated the claim is false: an occurrence whose last byte
is the last delivered byte is never reported, because each poll scans
only `[cursor, length − marker_length)` — see the counterexample.) -/
theorem scan_sentinel_amended (marker : List Nat) (chunks : List (List Nat)) (p : Nat)
    (hocc : occursAt chunks.flatten marker p)
    (huniq : ∀ q, occursAt chunks.flatten marker q → q = p) :
    scanReports marker ⟨[], 0⟩ chunks ≤ 1
    ∧ (∀ k, 1 ≤ scanReports marker ⟨[], 0⟩ (chunks.take k) →
        p + marker.length ≤ ((chunks.take k).flatten).length)
    ∧ (p + marker.length < chunks.flatten.length →
        scanReports marker ⟨[], 0⟩ chunks = 1) := by
  have hzero : (0 : Nat) = ([] : List Nat).length - marker.length := by simp
  have hfull := scanReports_char marker p chunks []
    (by intro q hq; exact huniq q (by simpa using hq))
  simp only [List.nil_append] at hfull
  rw [hzero] at hfull ⊢
  refine ⟨?_, ?_, ?_⟩
  · rw [hfull]
    split <;> omega
  · intro k hk
    have huk : ∀ q, occursAt (chunks.take k).flatten marker q → q = p := by
      intro q hq
      refine huniq q ?_
      rw [← flatten_take_append chunks k]
      exact occursAt_append_of_occursAt _ _ _ _ hq
    have hchar := scanReports_char marker p (chunks.take k) []
      (by intro q hq; exact huk q (by simpa using hq))
    simp only [List.nil_append] at hchar
    rw [hchar] at hk
    by_cases hcond : ([] : List Nat).length - marker.length ≤ p
        ∧ p + marker.length < (chunks.take k).flatten.length
        ∧ occursAt (chunks.take k).flatten marker p
    · omega
    · rw [if_neg hcond] at hk
      omega
  · intro hlt
    rw [hfull, if_pos ⟨by simp, hlt, hocc⟩]

/-- Witness for C3's amended theorem: marker `[7, 8]` delivered as the
chunks `[1, 7]`, `[8, 2]` — a unique occurrence at position 1, split
across two chunks, with one byte after it — is reported exactly once. -/
theorem scan_sentinel_amended_witness :
    scanReports [7, 8] ⟨[], 0⟩ [[1, 7], [8, 2]] ≤ 1
    ∧ (∀ k, 1 ≤ scanReports [7, 8] ⟨[], 0⟩ (([[1, 7], [8, 2]] : List (List Nat)).take k) →
        1 + 2 ≤ ((([[1, 7], [8, 2]] : List (List Nat)).take k).flatten).length)
    ∧ (1 + 2 < ([[1, 7], [8, 2]] : List (List Nat)).flatten.length →
        scanReports [7, 8] ⟨[], 0⟩ [[1, 7], [8, 2]] = 1) := by
  have h := scan_sentinel_amended [7, 8] [[1, 7], [8, 2]] 1 (by decide)
    (by
      intro q hq
      have h1 : q + 2 ≤ 4 := by simpa using hq.1
      have h2 : q ≤ 2 := by omega
      interval_cases q
      · exact absurd hq (by decide)
      · rfl
      · exact absurd hq (by decide))
  simpa using h

/-- Claim C3 counterexample: deliver exactly the Sentinel
(`MAGIC_TERMINATOR`), split into two chunks of 5 and 372 bytes with
nothing following it. The Sentinel occurs exactly once in the stream and
is split across two delivered chunks, yet the incremental search of the
poll loop never reports it (0 reports, not 1): the scanned range
`[cursor, length − marker_length)` never reaches an occurrence that ends
at the very end of the buffer. -/
theorem scan_sentinel_cex :
    occursAt (List.flatten [magicBytes.take 5, magicBytes.drop 5]) magicBytes 0
    ∧ (∀ q, occursAt (List.flatten [magicBytes.take 5, magicBytes.drop 5]) magicBytes q →
        q = 0)
    ∧ (magicBytes.take 5).length < magicBytes.length
    ∧ (magicBytes.drop 5).length < magicBytes.length
    ∧ scanReports magicBytes ⟨[], 0⟩ [magicBytes.take 5, magicBytes.drop 5] = 0 := by
  have hjoin : List.flatten [magicBytes.take 5, magicBytes.drop 5] = magicBytes := by
    simp
  refine ⟨?_, ?_, by decide, by decide, by decide⟩
  · rw [hjoin]
    exact ⟨by omega, by simp⟩
  · intro q hq
    rw [hjoin] at hq
    have := hq.1
    omega

/-! Claim C4: the guest timeout and its classification. -/

/-- Claim C4: for a matched guest run, the poll loop uses the timeout
`max(host_duration * 20, 10 s)`, and when a poll sees that the timeout
has elapsed with no Sentinel found and the process still running
(`try_wait` returns no exit), the attempt is classified `Failed` (a
timed-out error) when `should_panic` is `No` and passes (`Ok(true)`)
when it is `Yes` or `YesWithMessage`. -/
theorem valida_timeout_classification (t : TestDesc) (host : Nat) (env : GuestEnv)
    (p : PollObs)
    (hstart : check_test_started env.handshakeBytes t = true)
    (hpolls : env.polls = [p])
    (hfound : scanFound magicBytes (env.handshakeBytes ++ p.chunks.flatten) 0
        (searchEndOf magicBytes (env.handshakeBytes ++ p.chunks.flatten) 0) = false)
    (hwait : p.wait = .ok none)
    (helapsed : max (host * 20) 10000 ≤ p.elapsed) :
    run_test_on_valida_inner t host env =
      some ((match t.should_panic with
              | .no => .error (.timedOut (max (host * 20) 10000)
                  (env.handshakeBytes ++ p.chunks.flatten))
              | .yes => .ok true
              | .yesWithMessage _ => .ok true), false) := by
  unfold run_test_on_valida_inner
  rw [hstart, hpolls]
  simp only [if_true]
  unfold pollLoop
  simp only [scanStep, hfound, hwait, Bool.false_eq_true, if_false, if_pos helapsed, killChild]
  cases t.should_panic <;> rfl

/-- Witness for C4: a one-second host run gives a 20 s timeout; a poll at
20 s with no output, no exit and `should_panic = No` fails with the
timed-out diagnostic. -/
theorem valida_timeout_classification_witness :
    run_test_on_valida_inner ⟨"t", "f.rs", false, .no⟩ 1000
        ⟨asciiBytes "x\nRunning test: t in valida vm\n", [⟨[], .ok none, [], 20000⟩]⟩ =
      some (.error (.timedOut 20000
          (asciiBytes "x\nRunning test: t in valida vm\n")), false) := by
  have h := valida_timeout_classification ⟨"t", "f.rs", false, .no⟩ 1000
    ⟨asciiBytes "x\nRunning test: t in valida vm\n", [⟨[], .ok none, [], 20000⟩]⟩
    ⟨[], .ok none, [], 20000⟩ (by decide) rfl (by decide) rfl (by decide)
  simpa using h

/-! Claim C6: the top-level process exit code. -/

theorem host_runner_counters_aux (e : Bool) (ts : List TestRunObs) : ∀ c : RunCounters,
    (((ts.foldl (hostRunnerStep e) c).failed = 0 ∧
        (ts.foldl (hostRunnerStep e) c).valida_failed = 0)
      ↔ (c.failed = 0 ∧ c.valida_failed = 0 ∧ ∀ t ∈ ts,
          t.ignore = true
          ∨ ((∃ d, t.outcome = TestOutcome.passed d) ∧ (e = true → ∃ u, t.guest = .ok u))
          ∨ t.outcome = TestOutcome.unsupported)) := by
  induction ts with
  | nil =>
    intro c
    simp
  | cons t ts ih =>
    intro c
    have hstep : ((hostRunnerStep e c t).failed = 0 ∧ (hostRunnerStep e c t).valida_failed = 0)
        ↔ (c.failed = 0 ∧ c.valida_failed = 0 ∧
            (t.ignore = true
              ∨ ((∃ d, t.outcome = TestOutcome.passed d) ∧ (e = true → ∃ u, t.guest = .ok u))
              ∨ t.outcome = TestOutcome.unsupported)) := by
      rcases t with ⟨ig, outc, guest⟩
      cases ig
      · cases outc with
        | passed d =>
          cases e
          · simp [hostRunnerStep]
          · cases guest with
            | ok u => simp [hostRunnerStep]
            | error err => simp [hostRunnerStep]
        | failed r => simp [hostRunnerStep]
        | shouldPanicButPassed => simp [hostRunnerStep]
        | unsupported => simp [hostRunnerStep]
      · simp [hostRunnerStep]
    rw [List.foldl_cons, ih (hostRunnerStep e c t)]
    simp only [List.mem_cons, forall_eq_or_imp]
    constructor
    · rintro ⟨h1, h2, h3⟩
      have h4 := hstep.mp ⟨h1, h2⟩
      exact ⟨h4.1, h4.2.1, h4.2.2, h3⟩
    · rintro ⟨h1, h2, h3, h4⟩
      have h5 := hstep.mpr ⟨h1, h2, h3⟩
      exact ⟨h5.1, h5.2, h4⟩

/-- Claim C6: the runner's process exit code is 0 iff every executed
test was ignored, unsupported, or passed with its guest attempt (when
enabled) succeeding; any host `Failed` or `ShouldPanicButPassed` and any
guest failure makes it 1. -/
theorem runner_exit_code_zero_iff (enabled : Bool) (ts : List TestRunObs) :
    host_runner_exit_code enabled ts = 0
    ↔ ∀ t ∈ ts, t.ignore = true
        ∨ ((∃ d, t.outcome = TestOutcome.passed d) ∧ (enabled = true → ∃ u, t.guest = .ok u))
        ∨ t.outcome = TestOutcome.unsupported := by
  have h := host_runner_counters_aux enabled ts initCounters
  unfold host_runner_exit_code
  by_cases hc : (ts.foldl (hostRunnerStep enabled) initCounters).failed = 0 ∧
      (ts.foldl (hostRunnerStep enabled) initCounters).valida_failed = 0
  · rw [if_pos hc]
    simp only [eq_self_iff_true, true_iff]
    exact (h.mp hc).2.2
  · rw [if_neg hc]
    constructor
    · intro h10
      exact absurd h10 one_ne_zero
    · intro hall
      exact absurd (h.mpr ⟨rfl, rfl, hall⟩) hc

/-! Claim C7: the guest dispatcher handshake. -/

/-- Claim C7: for a selection request read from the input tape (two
lines, the name trimmed as the dispatcher does), the handshake line
`Running test: <name> in valida vm` is emitted iff a descriptor with
exactly that `(name, source_file)` key is in the compiled-in registry;
with no such descriptor, nothing follows the availability line. -/
theorem guest_handshake_iff (tests : List TestDesc) (tape : List Nat)
    (n f : String) (r r' : List Nat)
    (h1 : read_line_string tape = .ok (n, r))
    (h2 : read_line_string r = .ok (f, r')) :
    (run_single_test_in_valida tests tape =
        [availabilityLine tests, "Running test: " ++ rustTrim n ++ " in valida vm"]
      ↔ ∃ t ∈ tests, t.name = rustTrim n ∧ t.source_file = f)
    ∧ ((¬∃ t ∈ tests, t.name = rustTrim n ∧ t.source_file = f) →
        run_single_test_in_valida tests tape = [availabilityLine tests]) := by
  unfold run_single_test_in_valida
  rcases hfind : tests.find? (fun t => t.name == rustTrim n && t.source_file == f) with _ | t
  · have hnone := List.find?_eq_none.mp hfind
    simp only [h1, h2, hfind]
    constructor
    · constructor
      · intro heq
        simp at heq
      · rintro ⟨t, ht, hn, hf⟩
        have := hnone t ht
        rw [hn, hf] at this
        simp at this
    · intro _
      trivial
  · have hp := List.find?_some hfind
    have hmem := List.mem_of_find?_eq_some hfind
    simp only [Bool.and_eq_true, beq_iff_eq] at hp
    simp only [h1, h2, hfind]
    constructor
    · constructor
      · intro _
        exact ⟨t, hmem, hp.1, hp.2⟩
      · intro _
        unfold valida_test_second_line_stdout
        rw [hp.1]
    · intro hno
      exact absurd ⟨t, hmem, hp.1, hp.2⟩ hno

/-- Witness for C7 on a one-descriptor registry and the tape
`"foo\nlib.rs\n"`: the request matches and the handshake is emitted. -/
theorem guest_handshake_iff_witness :
    (run_single_test_in_valida [⟨"foo", "lib.rs", false, .no⟩] (asciiBytes "foo\nlib.rs\n") =
        [availabilityLine [⟨"foo", "lib.rs", false, .no⟩],
          "Running test: " ++ rustTrim "foo" ++ " in valida vm"]
      ↔ ∃ t ∈ [(⟨"foo", "lib.rs", false, .no⟩ : TestDesc)],
          t.name = rustTrim "foo" ∧ t.source_file = "lib.rs")
    ∧ ((¬∃ t ∈ [(⟨"foo", "lib.rs", false, .no⟩ : TestDesc)],
          t.name = rustTrim "foo" ∧ t.source_file = "lib.rs") →
        run_single_test_in_valida [⟨"foo", "lib.rs", false, .no⟩]
            (asciiBytes "foo\nlib.rs\n") =
          [availabilityLine [⟨"foo", "lib.rs", false, .no⟩]]) :=
  guest_handshake_iff [⟨"foo", "lib.rs", false, .no⟩] (asciiBytes "foo\nlib.rs\n")
    "foo" "lib.rs" (asciiBytes "lib.rs\n") [] (by rfl) (by rfl)

/-! Claim C8: candidate iteration order and the hard not-found error. -/

theorem valida_go_all_rejected (t : TestDesc) (host : Nat) :
    ∀ envs : List GuestEnv,
      (∀ env ∈ envs, ∃ b, run_test_on_valida_inner t host env = some (.ok false, b)) →
      run_test_on_valida_go t host envs = some (.error .notFound) := by
  intro envs
  induction envs with
  | nil => intro _; rfl
  | cons env rest ih =>
    intro hall
    obtain ⟨b, hb⟩ := hall env (by simp)
    simp only [run_test_on_valida_go, hb]
    exact ih (fun e he => hall e (by simp [he]))

/-- Claim C8: candidates are tried strictly in list order; a candidate
whose handshake does not match (`Ok(false)`) is skipped and the next one
is tried, the verdict of the first matching candidate is returned
(success, or its propagated failure), and exhausting every candidate
yields the hard `notFound` error, which is a different value from every
propagated per-candidate failure. In particular, with two candidates
where the first rejects the test, the second candidate's verdict is
returned. -/
theorem valida_candidate_iteration (t : TestDesc) (host : Nat)
    (env1 env2 : GuestEnv) (v : Except InnerErr Bool) (b1 b2 : Bool)
    (h1 : run_test_on_valida_inner t host env1 = some (.ok false, b1))
    (h2 : run_test_on_valida_inner t host env2 = some (v, b2)) :
    run_test_on_valida t host [env1, env2] =
      some (match v with
            | .ok true => .ok ()
            | .ok false => .error .notFound
            | .error e => .error (.inner e))
    ∧ (∀ envs : List GuestEnv, envs ≠ [] →
        (∀ env ∈ envs, ∃ b, run_test_on_valida_inner t host env = some (.ok false, b)) →
        run_test_on_valida t host envs = some (.error .notFound))
    ∧ (∀ e, ValidaErr.notFound ≠ ValidaErr.inner e)
    ∧ ValidaErr.notFound ≠ ValidaErr.noBinaries := by
  refine ⟨?_, ?_, ?_, ?_⟩
  · simp only [run_test_on_valida, List.isEmpty_cons, Bool.false_eq_true, if_false,
      run_test_on_valida_go, h1, h2]
    rcases v with e | b
    · rfl
    · cases b <;> rfl
  · intro envs hne hall
    rcases envs with _ | ⟨env, rest⟩
    · exact absurd rfl hne
    · simp only [run_test_on_valida, List.isEmpty_cons, Bool.false_eq_true, if_false]
      exact valida_go_all_rejected t host (env :: rest) hall
  · intro e h
    cases h
  · intro h
    cases h

/-- Witness for C8: two candidates that both reject the test (empty
handshake output) exhaust the list and give the hard not-found error. -/
theorem valida_candidate_iteration_witness :
    run_test_on_valida ⟨"t", "f.rs", false, .no⟩ 0 [⟨[], []⟩, ⟨[], []⟩] =
        some (.error .notFound)
    ∧ (∀ envs : List GuestEnv, envs ≠ [] →
        (∀ env ∈ envs, ∃ b, run_test_on_valida_inner ⟨"t", "f.rs", false, .no⟩ 0 env =
          some (.ok false, b)) →
        run_test_on_valida ⟨"t", "f.rs", false, .no⟩ 0 envs = some (.error .notFound))
    ∧ (∀ e, ValidaErr.notFound ≠ ValidaErr.inner e)
    ∧ ValidaErr.notFound ≠ ValidaErr.noBinaries := by
  have h := valida_candidate_iteration ⟨"t", "f.rs", false, .no⟩ 0 ⟨[], []⟩ ⟨[], []⟩
    (.ok false) false false rfl rfl
  simpa using h

/-! Claim C9: the child process is killed on every return path. -/

theorem pollLoop_kills (t : TestDesc) (timeout : Nat) (alive : Bool) :
    ∀ (polls : List PollObs) (s : ScanState) (r : Except InnerErr Bool) (b : Bool),
      pollLoop t timeout alive s polls = some (r, b) → b = false := by
  intro polls
  induction polls with
  | nil =>
    intro s r b h
    simp [pollLoop] at h
  | cons p rest ih =>
    intro s r b h
    unfold pollLoop at h
    simp only [killChild] at h
    repeat' split at h
    all_goals
      first
        | exact ih _ _ _ h
        | (simp only [Option.some.injEq, Prod.mk.injEq] at h; exact h.2.symm)

/-- Claim C9: on every exit path of the per-candidate supervisor
(handshake mismatch, Sentinel observed, process exit, wait failure, or
timeout), the `ScopedChild` destructor kills the spawned child before
the call returns: whenever `run_test_on_valida_inner` returns, the child
is no longer alive. -/
theorem child_killed_on_return (t : TestDesc) (host : Nat) (env : GuestEnv)
    (r : Except InnerErr Bool) (b : Bool)
    (h : run_test_on_valida_inner t host env = some (r, b)) : b = false := by
  unfold run_test_on_valida_inner at h
  split at h
  · exact pollLoop_kills t _ true env.polls ⟨env.handshakeBytes, 0⟩ r b h
  · simp only [killChild, Option.some.injEq, Prod.mk.injEq] at h
    exact h.2.symm

/-- Witness for C9: a candidate whose handshake bytes are empty returns
`Ok(false)` with the child killed. -/
theorem child_killed_on_return_witness :
    run_test_on_valida_inner ⟨"w", "g.rs", false, .no⟩ 0 ⟨[], []⟩ = some (.ok false, false)
    ∧ (false : Bool) = false := by
  have hrun : run_test_on_valida_inner ⟨"w", "g.rs", false, .no⟩ 0 ⟨[], []⟩ =
      some (.ok false, false) := rfl
  exact ⟨hrun, child_killed_on_return ⟨"w", "g.rs", false, .no⟩ 0 ⟨[], []⟩ (.ok false) false hrun⟩

/-! Claim C10: an exhausted input tape. -/

/-- Claim C10: with the input tape exhausted from the start (`getchar`
immediately yields `u32::MAX`), `read_line::<String>()` returns
`Ok("")` — `read_until` returns an empty buffer at end-of-stream and
parsing a `String` is infallible — so the dispatcher's early-return path
is not taken; the empty request is handled as a registry lookup miss and
(for a registry with no empty-key descriptor) no handshake follows the
availability line. -/
theorem exhausted_tape_reads_empty (tests : List TestDesc)
    (hno : ∀ t ∈ tests, ¬(t.name = "" ∧ t.source_file = "")) :
    read_line_string ([] : List Nat) = .ok ("", [])
    ∧ run_single_test_in_valida tests [] = [availabilityLine tests] := by
  have hread : read_line_string ([] : List Nat) = .ok ("", []) := rfl
  refine ⟨hread, ?_⟩
  unfold run_single_test_in_valida
  have hfind : tests.find? (fun t => t.name == rustTrim "" && t.source_file == "") = none := by
    rw [List.find?_eq_none]
    intro t ht
    simp only [Bool.and_eq_true, beq_iff_eq]
    rintro ⟨hn, hf⟩
    have htr : rustTrim "" = "" := rfl
    rw [htr] at hn
    exact hno t ht ⟨hn, hf⟩
  simp only [hread, hfind]

/-- Witness for C10 on a one-descriptor registry. -/
theorem exhausted_tape_reads_empty_witness :
    read_line_string ([] : List Nat) = .ok ("", [])
    ∧ run_single_test_in_valida [⟨"test_add", "src/lib.rs", false, .no⟩] [] =
        [availabilityLine [⟨"test_add", "src/lib.rs", false, .no⟩]] :=
  exhausted_tape_reads_empty [⟨"test_add", "src/lib.rs", false, .no⟩] (by decide)
